/-
  Verification of the `@fimbul-works/barcode-scanner` library
  (`src/index.ts`, class `BarcodeDetector`).

  The TypeScript class is shallowly embedded as pure Lean functions:
  * the private mutable fields `buffer`, `debugData`, `lastKeystrokeTime`
    and `timeoutId` become the record `DetectorState`;
  * each method becomes a function from the old state to the new state,
    paired with the list of `ScanEvent`s emitted during the call (the
    events handed to every currently registered listener);
  * wall-clock time (`Date.now()`) is an explicit `Nat` argument;
  * the single pending `window.setTimeout` is modelled by storing the
    scheduling instant in `timeoutId`; the callback fires at
    `schedulingInstant + maxDelay`.  In the event-driven semantics
    (`deliverKey` / `runEvents`) the callback runs before a key event at
    time `t` exactly when its due time is `≤ t`, and a trailing pending
    timer fires after the last event (`flushTimer`).
  * the subscriber bookkeeping (`listeners`, `isAttached`) and the
    public methods `onScan` / `unsubscribe` / `destroy` are embedded on
    top of the state as the record `Detector`; listeners are identified
    by `Nat` tokens, the `Set<ScanListener>` becomes a duplicate-free
    list.
-/
import Mathlib

set_option linter.unusedVariables false

/-- Options of the `BarcodeDetector` constructor (`BarcodeDetectorOptions`,
`src/index.ts` lines 4-17), with every optional field resolved to its
default as in the constructor (lines 112-129).  Numeric options are
embedded as `Nat` (the library performs no range validation). -/
structure BarcodeDetectorOptions where
  maxDelay : Nat
  terminationKey : String
  minBarcodeLength : Nat
  maxBarcodeLength : Nat
  enableDebugEvents : Bool
  preventDefault : Bool
deriving Repr, DecidableEq

/-- The defaults of the constructor (`src/index.ts` lines 113-120). -/
def defaultOptions : BarcodeDetectorOptions :=
  { maxDelay := 10
    terminationKey := "Enter"
    minBarcodeLength := 3
    maxBarcodeLength := 100
    enableDebugEvents := false
    preventDefault := false }

/-- One entry of the debug trace (`KeystrokeData`, `src/index.ts`
lines 34-41). -/
structure KeystrokeData where
  key : String
  timestamp : Nat
  delay : Nat
deriving Repr, DecidableEq

/-- A scan result (`ScanEvent`, `src/index.ts` lines 22-29).  The
optional `keystrokes` field becomes an `Option`. -/
structure ScanEvent where
  barcode : String
  timestamp : Nat
  keystrokes : Option (List KeystrokeData)
deriving Repr, DecidableEq

/-- The transient private state of a `BarcodeDetector`
(`src/index.ts` lines 106-109).  `timeoutId` stores the instant at
which the pending timeout was scheduled (`none` = no pending timer). -/
structure DetectorState where
  buffer : List String
  debugData : List KeystrokeData
  lastKeystrokeTime : Nat
  timeoutId : Option Nat
deriving Repr, DecidableEq

/-- The field initialisers of the class (`src/index.ts` lines 106-109). -/
def initialState : DetectorState :=
  { buffer := [], debugData := [], lastKeystrokeTime := 0, timeoutId := none }

/-- `clearBuffer` (`src/index.ts` lines 266-275): empties the buffer and
debug trace, resets the last-keystroke time to `0` and cancels any
pending timer. -/
def clearBuffer (s : DetectorState) : DetectorState :=
  { buffer := [], debugData := [], lastKeystrokeTime := 0, timeoutId := none }

/-- `finalizeScan` (`src/index.ts` lines 235-264): cancels the pending
timer, joins the buffer into the barcode, stamps the current time,
attaches a copy of the debug trace when debug mode is on, delivers the
event to every listener and clears the transient state.  The emitted
event is returned alongside the new (cleared) state. -/
def finalizeScan (opts : BarcodeDetectorOptions) (s : DetectorState) (now : Nat) :
    DetectorState × ScanEvent :=
  ({ buffer := [], debugData := [], lastKeystrokeTime := 0, timeoutId := none },
   { barcode := String.join s.buffer
     timestamp := now
     keystrokes := if opts.enableDebugEvents then some s.debugData else none })

/-- The callback scheduled by `resetTimeout` (`src/index.ts`
lines 226-232): when it fires (at `fireAt` = scheduling instant +
`maxDelay`) it finalizes the scan when the buffer has reached
`minBarcodeLength`, otherwise discards it. -/
def timerCallback (opts : BarcodeDetectorOptions) (s : DetectorState) (fireAt : Nat) :
    DetectorState × List ScanEvent :=
  if opts.minBarcodeLength ≤ s.buffer.length then
    let r := finalizeScan opts s fireAt
    (r.1, [r.2])
  else
    (clearBuffer s, [])

/-- The accept path of `handleKeyDown` (`src/index.ts` lines 204-218):
push the character, record a debug entry (computed with the delay
`lastKeystrokeTime ? now - lastKeystrokeTime : 0` of line 185) when
debug mode is on, set the last-keystroke time, and (re)schedule the
inactivity timer (`resetTimeout`, lines 221-233) at `now`. -/
def acceptChar (opts : BarcodeDetectorOptions) (s : DetectorState) (key : String) (now : Nat) :
    DetectorState :=
  { buffer := s.buffer ++ [key]
    debugData :=
      if opts.enableDebugEvents then
        s.debugData ++
          [{ key := key, timestamp := now
             delay := if s.lastKeystrokeTime ≠ 0 then now - s.lastKeystrokeTime else 0 }]
      else s.debugData
    lastKeystrokeTime := now
    timeoutId := some now }

/-- `handleKeyDown` (`src/index.ts` lines 178-219): ignore keys longer
than one character other than the termination key; update the
last-keystroke time; on the termination key finalize or discard by
length; on overflow (`buffer.length >= maxBarcodeLength`) discard;
otherwise accept the character. -/
def handleKeyDown (opts : BarcodeDetectorOptions) (s : DetectorState) (key : String)
    (now : Nat) : DetectorState × List ScanEvent :=
  if 1 < key.length ∧ key ≠ opts.terminationKey then
    (s, [])
  else
    let s1 : DetectorState := { s with lastKeystrokeTime := now }
    if key = opts.terminationKey then
      if opts.minBarcodeLength ≤ s1.buffer.length then
        let r := finalizeScan opts s1 now
        (r.1, [r.2])
      else
        (clearBuffer s1, [])
    else if opts.maxBarcodeLength ≤ s1.buffer.length then
      (clearBuffer s1, [])
    else
      (acceptChar opts s key now, [])

/-- Deliver one host `keydown` event at absolute time `now` to the
handler.  If the pending inactivity timer (scheduled at `t0`, due at
`t0 + maxDelay`) is due by `now`, its callback runs first, exactly as
the host event loop would run it before the later key event. -/
def deliverKey (opts : BarcodeDetectorOptions) (s : DetectorState) (key : String)
    (now : Nat) : DetectorState × List ScanEvent :=
  match s.timeoutId with
  | some t0 =>
      if t0 + opts.maxDelay ≤ now then
        let r1 := timerCallback opts s (t0 + opts.maxDelay)
        let r2 := handleKeyDown opts r1.1 key now
        (r2.1, r1.2 ++ r2.2)
      else
        handleKeyDown opts s key now
  | none => handleKeyDown opts s key now

/-- Deliver a list of timed key events (absolute times) in order. -/
def runFrom (opts : BarcodeDetectorOptions) (s : DetectorState) :
    List (String × Nat) → DetectorState × List ScanEvent
  | [] => (s, [])
  | (k, t) :: rest =>
      let r1 := deliverKey opts s k t
      let r2 := runFrom opts r1.1 rest
      (r2.1, r1.2 ++ r2.2)

/-- After the last key event, a still-pending inactivity timer
eventually fires. -/
def flushTimer (opts : BarcodeDetectorOptions) (s : DetectorState) :
    DetectorState × List ScanEvent :=
  match s.timeoutId with
  | some t0 => timerCallback opts s (t0 + opts.maxDelay)
  | none => (s, [])

/-- Run the detector state machine from the initial state over a timed
key-event trace and let the trailing timer (if any) fire. -/
def runEvents (opts : BarcodeDetectorOptions) (evs : List (String × Nat)) :
    DetectorState × List ScanEvent :=
  let r := runFrom opts initialState evs
  let r2 := flushTimer opts r.1
  (r2.1, r.2 ++ r2.2)

/-- A whole `BarcodeDetector` instance: options, subscriber set
(duplicate-free list of listener tokens), transient state and the
`isAttached` flag (`src/index.ts` lines 103-110). -/
structure Detector where
  options : BarcodeDetectorOptions
  listeners : List Nat
  state : DetectorState
  isAttached : Bool
deriving Repr, DecidableEq

/-- A freshly constructed detector (`src/index.ts` lines 105-129). -/
def mkDetector (opts : BarcodeDetectorOptions) : Detector :=
  { options := opts, listeners := [], state := initialState, isAttached := false }

/-- `onScan` (`src/index.ts` lines 136-143): add the listener to the
set (a second registration of the same reference is a no-op) and attach
the global key listener when the set now has exactly one member and the
detector is not attached (`attachGlobalListener`, lines 164-169). -/
def onScan (d : Detector) (l : Nat) : Detector :=
  let ls := if l ∈ d.listeners then d.listeners else d.listeners ++ [l]
  let d1 := { d with listeners := ls }
  if ls.length = 1 ∧ d1.isAttached = false then { d1 with isAttached := true } else d1

/-- The unsubscribe closure returned by `onScan` (`src/index.ts`
lines 145-152): delete the captured listener and detach the global key
listener when the set became empty (`removeGlobalListener`,
lines 171-176).  The pending timer is *not* touched. -/
def unsubscribe (d : Detector) (l : Nat) : Detector :=
  let ls := d.listeners.erase l
  let d1 := { d with listeners := ls }
  if ls = [] ∧ d1.isAttached = true then { d1 with isAttached := false } else d1

/-- `destroy` (`src/index.ts` lines 158-162): clear all listeners,
detach the global key listener, and clear the transient state
(including the pending timer, via `clearBuffer`). -/
def destroy (d : Detector) : Detector :=
  { d with listeners := [], isAttached := false, state := clearBuffer d.state }

/-- A host `keydown` reaching the detector: processed only while the
global listener is attached (`document.addEventListener` is the only
way `handleKeyDown` is ever invoked). -/
def domKeydown (d : Detector) (key : String) (now : Nat) : Detector × List ScanEvent :=
  if d.isAttached then
    let r := deliverKey d.options d.state key now
    ({ d with state := r.1 }, r.2)
  else
    (d, [])

/-- The pending `window.setTimeout` firing.  A timer scheduled by
`resetTimeout` fires whether or not the key listener is still attached:
nothing in `onScan`'s unsubscribe closure cancels it. -/
def timerFire (d : Detector) : Detector × List ScanEvent :=
  match d.state.timeoutId with
  | some t0 =>
      let r := timerCallback d.options d.state (t0 + d.options.maxDelay)
      ({ d with state := r.1 }, r.2)
  | none => (d, [])

/-- Whether `handleKeyDown` calls `event.preventDefault()` (or
`event.stopPropagation()`) on the host `KeyboardEvent` it is handling.
The handler's body (`src/index.ts` lines 178-219) contains no such call
on any path — the `preventDefault` option is read nowhere outside the
constructor — so this is `false` for every option record, state and
key. -/
def handleKeyDownPreventsDefault (opts : BarcodeDetectorOptions) (s : DetectorState)
    (key : String) (now : Nat) : Bool := false

/-- `afterOK opts tp evs`: every event of `evs` is a one-character key
different from the termination key, and, chaining from previous time
`tp`, times are monotone with every gap strictly below `maxDelay`. -/
def afterOK (opts : BarcodeDetectorOptions) (tp : Nat) : List (String × Nat) → Bool
  | [] => true
  | (k, t) :: rest =>
      decide (k.length = 1) && decide (k ≠ opts.terminationKey) &&
      decide (tp ≤ t) && decide (t < tp + opts.maxDelay) && afterOK opts t rest

/-- `goodRun opts evs`: the events form one fast burst of data
characters: each key is one character and not the termination key, and
each inter-key gap is strictly below `maxDelay`. -/
def goodRun (opts : BarcodeDetectorOptions) : List (String × Nat) → Bool
  | [] => true
  | (k, t) :: rest =>
      decide (k.length = 1) && decide (k ≠ opts.terminationKey) && afterOK opts t rest

/-- The time of the last event of a trace (`d` when the trace is empty). -/
def endTime (d : Nat) : List (String × Nat) → Nat
  | [] => d
  | (_, t) :: rest => endTime t rest

/-- `lastGapOK opts cs tN`: the termination press at `tN` follows the
last data character within `maxDelay` (vacuous for an empty run). -/
def lastGapOK (opts : BarcodeDetectorOptions) : List (String × Nat) → Nat → Bool
  | [], _ => true
  | (_, t0) :: cr, tN =>
      decide (endTime t0 cr ≤ tN) && decide (tN < endTime t0 cr + opts.maxDelay)

/-- `gapOK due post`: the first event of `post` (if any) happens at or
after the instant `due`. -/
def gapOK (due : Nat) : List (String × Nat) → Bool
  | [] => true
  | (_, tf) :: _ => decide (due ≤ tf)

/-- The state reached by feeding a burst of accepted characters one by
one through the accept path of `handleKeyDown`. -/
def chainExtend (opts : BarcodeDetectorOptions) (s : DetectorState) :
    List (String × Nat) → DetectorState
  | [] => s
  | (k, t) :: rest => chainExtend opts (acceptChar opts s k t) rest

/-- The debug entries the accept path produces for a burst of events,
chaining the previous-keystroke time from `tp` (the entry's delay is
the code's `lastKeystrokeTime ? now - lastKeystrokeTime : 0`). -/
def expectedTrace (tp : Nat) : List (String × Nat) → List KeystrokeData
  | [] => []
  | (k, t) :: rest =>
      { key := k, timestamp := t, delay := if tp ≠ 0 then t - tp else 0 } ::
        expectedTrace t rest

/-- Trace entries with each delay equal to the actual inter-arrival gap
from the previous event time `tp` (the spec's wording for non-first
entries). -/
def gapTrace (tp : Nat) : List (String × Nat) → List KeystrokeData
  | [] => []
  | (k, t) :: rest => { key := k, timestamp := t, delay := t - tp } :: gapTrace t rest

/-- The debug trace the spec promises for a run: one entry per accepted
character, the first entry's delay `0`, every later delay the actual
inter-arrival gap. -/
def traceSpec : List (String × Nat) → List KeystrokeData
  | [] => []
  | (k, t) :: rest => { key := k, timestamp := t, delay := 0 } :: gapTrace t rest

/-- Invariant carried through every step: the buffer never exceeds
`maxBarcodeLength` entries and every buffered entry is at most one
character (only keys passing the ignore filter are pushed). -/
def stateOK (opts : BarcodeDetectorOptions) (s : DetectorState) : Prop :=
  s.buffer.length ≤ opts.maxBarcodeLength ∧ ∀ c ∈ s.buffer, c.length ≤ 1

/-- Options used by the C1/C3 counterexamples: a small
`maxBarcodeLength` of 3 and `minBarcodeLength` 1, otherwise defaults. -/
def smallOptions : BarcodeDetectorOptions :=
  { maxDelay := 10
    terminationKey := "Enter"
    minBarcodeLength := 1
    maxBarcodeLength := 3
    enableDebugEvents := false
    preventDefault := false }

/-- Default options with debug events enabled. -/
def debugOptions : BarcodeDetectorOptions :=
  { defaultOptions with enableDebugEvents := true }

/-- Options with `maxBarcodeLength := 2`, otherwise defaults (C6
counterexample). -/
def maxTwoOptions : BarcodeDetectorOptions :=
  { defaultOptions with maxBarcodeLength := 2 }

/-- Default options with `preventDefault := true` (C7). -/
def pdOptions : BarcodeDetectorOptions :=
  { defaultOptions with preventDefault := true }

/-- Detector used by the C4 counterexample: one subscriber, one buffered
character `"a"` at time 5 (timer pending), then the only listener
unsubscribed. -/
def c4Detector : Detector :=
  unsubscribe (domKeydown (onScan (mkDetector defaultOptions) 0) "a" 5).1 0

/-- `clearBuffer` always produces the freshly constructed state. -/
theorem clearBuffer_eq (s : DetectorState) : clearBuffer s = initialState := rfl

/-- `runFrom` processes an appended trace piecewise. -/
theorem runFrom_append (opts : BarcodeDetectorOptions) (a b : List (String × Nat)) :
    ∀ s : DetectorState,
      runFrom opts s (a ++ b) =
        ((runFrom opts (runFrom opts s a).1 b).1,
         (runFrom opts s a).2 ++ (runFrom opts (runFrom opts s a).1 b).2) := by
  induction a with
  | nil => intro s; simp [runFrom]
  | cons p rest ih =>
      intro s
      obtain ⟨k, t⟩ := p
      simp [runFrom, ih (deliverKey opts s k t).1]

/-- A one-character key that is not the termination key, arriving while
the buffer has room, is accepted. -/
theorem handleKeyDown_accept (opts : BarcodeDetectorOptions) (s : DetectorState)
    (key : String) (now : Nat) (hk : key.length = 1)
    (hne : key ≠ opts.terminationKey)
    (hroom : s.buffer.length < opts.maxBarcodeLength) :
    handleKeyDown opts s key now = (acceptChar opts s key now, []) := by
  have h1 : ¬ (1 < key.length ∧ key ≠ opts.terminationKey) := by
    intro h
    rw [hk] at h
    exact Nat.lt_irrefl 1 h.1
  have h3 : ¬ (opts.maxBarcodeLength ≤ s.buffer.length) := Nat.not_le.mpr hroom
  simp only [handleKeyDown, if_neg h1, if_neg hne]
  rw [if_neg h3]

/-- When the pending timer is not yet due, delivering a key is just the
handler. -/
theorem deliverKey_notDue (opts : BarcodeDetectorOptions) (s : DetectorState)
    (key : String) (now tp : Nat) (h : s.timeoutId = some tp)
    (hlt : now < tp + opts.maxDelay) :
    deliverKey opts s key now = handleKeyDown opts s key now := by
  have : ¬ (tp + opts.maxDelay ≤ now) := Nat.not_le.mpr hlt
  simp only [deliverKey, h, if_neg this]

/-- When no timer is pending, delivering a key is just the handler. -/
theorem deliverKey_noTimer (opts : BarcodeDetectorOptions) (s : DetectorState)
    (key : String) (now : Nat) (h : s.timeoutId = none) :
    deliverKey opts s key now = handleKeyDown opts s key now := by
  simp only [deliverKey, h]

/-- When the pending timer is due, its callback runs before the key is
handled. -/
theorem deliverKey_due (opts : BarcodeDetectorOptions) (s : DetectorState)
    (key : String) (now tp : Nat) (h : s.timeoutId = some tp)
    (hle : tp + opts.maxDelay ≤ now) :
    deliverKey opts s key now =
      ((handleKeyDown opts (timerCallback opts s (tp + opts.maxDelay)).1 key now).1,
       (timerCallback opts s (tp + opts.maxDelay)).2 ++
         (handleKeyDown opts (timerCallback opts s (tp + opts.maxDelay)).1 key now).2) := by
  simp only [deliverKey, h, if_pos hle]

/-- Unfolding of `afterOK` on a cons cell. -/
theorem afterOK_cons (opts : BarcodeDetectorOptions) (tp : Nat) (k : String) (t : Nat)
    (rest : List (String × Nat)) :
    afterOK opts tp ((k, t) :: rest) = true ↔
      k.length = 1 ∧ k ≠ opts.terminationKey ∧ tp ≤ t ∧ t < tp + opts.maxDelay ∧
        afterOK opts t rest = true := by
  simp [afterOK, Bool.and_eq_true, decide_eq_true_eq, and_assoc]

/-- Unfolding of `goodRun` on a cons cell. -/
theorem goodRun_cons (opts : BarcodeDetectorOptions) (k : String) (t : Nat)
    (rest : List (String × Nat)) :
    goodRun opts ((k, t) :: rest) = true ↔
      k.length = 1 ∧ k ≠ opts.terminationKey ∧ afterOK opts t rest = true := by
  simp [goodRun, Bool.and_eq_true, decide_eq_true_eq, and_assoc]

/-- Running a fast in-window burst from a state with a live timer
accepts every character and emits nothing. -/
theorem runFrom_chain (opts : BarcodeDetectorOptions) (cr : List (String × Nat)) :
    ∀ (s : DetectorState) (tp : Nat),
      afterOK opts tp cr = true → s.timeoutId = some tp →
      s.buffer.length + cr.length ≤ opts.maxBarcodeLength →
      runFrom opts s cr = (chainExtend opts s cr, []) := by
  induction cr with
  | nil => intro s tp _ _ _; rfl
  | cons p rest ih =>
      obtain ⟨k, t⟩ := p
      intro s tp hok htid hroom
      rw [afterOK_cons] at hok
      obtain ⟨hk, hne, hle, hlt, hrest⟩ := hok
      have hroom' : s.buffer.length < opts.maxBarcodeLength := by
        simp only [List.length_cons] at hroom
        omega
      have hstep : deliverKey opts s k t = (acceptChar opts s k t, []) := by
        rw [deliverKey_notDue opts s k t tp htid hlt]
        exact handleKeyDown_accept opts s k t hk hne hroom'
      have htail : runFrom opts (acceptChar opts s k t) rest =
          (chainExtend opts (acceptChar opts s k t) rest, []) := by
        refine ih (acceptChar opts s k t) t hrest rfl ?_
        simp only [acceptChar, List.length_append, List.length_cons,
          List.length_nil] at hroom ⊢
        omega
      simp [runFrom, hstep, htail, chainExtend]

/-- The buffer after a burst is the old buffer followed by the burst's
keys. -/
theorem chainExtend_buffer (opts : BarcodeDetectorOptions) (cr : List (String × Nat)) :
    ∀ s : DetectorState,
      (chainExtend opts s cr).buffer = s.buffer ++ cr.map Prod.fst := by
  induction cr with
  | nil => intro s; simp [chainExtend]
  | cons p rest ih =>
      obtain ⟨k, t⟩ := p
      intro s
      simp [chainExtend, ih, acceptChar]

/-- The last-keystroke time after a burst is the burst's last event time. -/
theorem chainExtend_lastTime (opts : BarcodeDetectorOptions) (cr : List (String × Nat)) :
    ∀ s : DetectorState,
      (chainExtend opts s cr).lastKeystrokeTime = endTime s.lastKeystrokeTime cr := by
  induction cr with
  | nil => intro s; simp [chainExtend, endTime]
  | cons p rest ih =>
      obtain ⟨k, t⟩ := p
      intro s
      simp [chainExtend, ih, acceptChar, endTime]

/-- The timer after a burst was scheduled at the burst's last event time. -/
theorem chainExtend_timeoutId (opts : BarcodeDetectorOptions) (cr : List (String × Nat)) :
    ∀ (s : DetectorState) (tp : Nat), s.timeoutId = some tp →
      (chainExtend opts s cr).timeoutId = some (endTime tp cr) := by
  induction cr with
  | nil => intro s tp h; simpa [chainExtend, endTime] using h
  | cons p rest ih =>
      obtain ⟨k, t⟩ := p
      intro s tp h
      simp [chainExtend, ih (acceptChar opts s k t) t rfl, endTime]

/-- The debug trace after a burst: in debug mode one entry per accepted
character with the delay computed from the chained previous time. -/
theorem chainExtend_debug (opts : BarcodeDetectorOptions) (cr : List (String × Nat)) :
    ∀ s : DetectorState,
      (chainExtend opts s cr).debugData =
        s.debugData ++
          (if opts.enableDebugEvents then expectedTrace s.lastKeystrokeTime cr else []) := by
  induction cr with
  | nil => intro s; simp [chainExtend, expectedTrace]
  | cons p rest ih =>
      obtain ⟨k, t⟩ := p
      intro s
      by_cases hdbg : opts.enableDebugEvents
      · simp [chainExtend, ih, acceptChar, hdbg, expectedTrace]
      · simp [chainExtend, ih, acceptChar, hdbg]

/-- Running a whole fast burst from the initial state: every character
accepted, nothing emitted. -/
theorem runFrom_burst (opts : BarcodeDetectorOptions) (c0 : String) (t0 : Nat)
    (cr : List (String × Nat)) (hk : c0.length = 1)
    (hne : c0 ≠ opts.terminationKey) (hok : afterOK opts t0 cr = true)
    (hroom : cr.length + 1 ≤ opts.maxBarcodeLength) :
    runFrom opts initialState ((c0, t0) :: cr) =
      (chainExtend opts (acceptChar opts initialState c0 t0) cr, []) := by
  have h0 : deliverKey opts initialState c0 t0 =
      (acceptChar opts initialState c0 t0, []) := by
    rw [deliverKey_noTimer opts initialState c0 t0 rfl]
    refine handleKeyDown_accept opts initialState c0 t0 hk hne ?_
    simp only [initialState, List.length_nil]
    omega
  have htail : runFrom opts (acceptChar opts initialState c0 t0) cr =
      (chainExtend opts (acceptChar opts initialState c0 t0) cr, []) := by
    refine runFrom_chain opts cr _ t0 hok rfl ?_
    simp only [acceptChar, initialState, List.length_append, List.length_nil,
      List.length_cons]
    omega
  simp [runFrom, h0, htail, chainExtend]

/-- The timer callback finalizes (emitting once) when the buffer is long
enough. -/
theorem timerCallback_emit (opts : BarcodeDetectorOptions) (s : DetectorState)
    (fireAt : Nat) (h : opts.minBarcodeLength ≤ s.buffer.length) :
    timerCallback opts s fireAt =
      (initialState,
       [{ barcode := String.join s.buffer, timestamp := fireAt
          keystrokes := if opts.enableDebugEvents then some s.debugData else none }]) := by
  simp [timerCallback, finalizeScan, initialState, h]

/-- The timer callback discards a too-short buffer without emitting. -/
theorem timerCallback_discard (opts : BarcodeDetectorOptions) (s : DetectorState)
    (fireAt : Nat) (h : s.buffer.length < opts.minBarcodeLength) :
    timerCallback opts s fireAt = (initialState, []) := by
  simp [timerCallback, clearBuffer, initialState, Nat.not_le.mpr h]

/-- The termination key on a long-enough buffer finalizes the scan. -/
theorem handleKeyDown_term (opts : BarcodeDetectorOptions) (s : DetectorState)
    (now : Nat) (hlen : opts.minBarcodeLength ≤ s.buffer.length) :
    handleKeyDown opts s opts.terminationKey now =
      (initialState,
       [{ barcode := String.join s.buffer, timestamp := now
          keystrokes := if opts.enableDebugEvents then some s.debugData else none }]) := by
  have h1 : ¬ (1 < opts.terminationKey.length ∧
      opts.terminationKey ≠ opts.terminationKey) := fun h => h.2 rfl
  simp [handleKeyDown, finalizeScan, initialState, h1, hlen]

/-- The termination key on a too-short buffer discards it silently. -/
theorem handleKeyDown_term_short (opts : BarcodeDetectorOptions) (s : DetectorState)
    (now : Nat) (hlen : s.buffer.length < opts.minBarcodeLength) :
    handleKeyDown opts s opts.terminationKey now = (initialState, []) := by
  have h1 : ¬ (1 < opts.terminationKey.length ∧
      opts.terminationKey ≠ opts.terminationKey) := fun h => h.2 rfl
  simp [handleKeyDown, clearBuffer, initialState, h1, Nat.not_le.mpr hlen]

/-- A fast burst of length within `[minBarcodeLength, maxBarcodeLength]`
terminated by the termination key within the delay window emits exactly
one scan: the concatenation of the burst's keys, stamped with the
termination time, carrying the debug trace exactly when debug mode is
on. -/
theorem runEvents_goodRun_term (opts : BarcodeDetectorOptions) (c0 : String)
    (t0 : Nat) (cr : List (String × Nat)) (tN : Nat)
    (hgood : goodRun opts ((c0, t0) :: cr) = true)
    (hlast : lastGapOK opts ((c0, t0) :: cr) tN = true)
    (hmin : opts.minBarcodeLength ≤ cr.length + 1)
    (hmax : cr.length + 1 ≤ opts.maxBarcodeLength) :
    runEvents opts (((c0, t0) :: cr) ++ [(opts.terminationKey, tN)]) =
      (initialState,
       [{ barcode := String.join (c0 :: cr.map Prod.fst), timestamp := tN
          keystrokes :=
            if opts.enableDebugEvents then
              some ({ key := c0, timestamp := t0, delay := 0 } :: expectedTrace t0 cr)
            else none }]) := by
  rw [goodRun_cons] at hgood
  obtain ⟨hk, hne, hok⟩ := hgood
  simp only [lastGapOK, Bool.and_eq_true, decide_eq_true_eq] at hlast
  obtain ⟨htE1, htE2⟩ := hlast
  have hburst := runFrom_burst opts c0 t0 cr hk hne hok hmax
  have hSbuf : (chainExtend opts (acceptChar opts initialState c0 t0) cr).buffer =
      c0 :: cr.map Prod.fst := by
    rw [chainExtend_buffer]
    simp [acceptChar, initialState]
  have hStid : (chainExtend opts (acceptChar opts initialState c0 t0) cr).timeoutId =
      some (endTime t0 cr) :=
    chainExtend_timeoutId opts cr _ t0 rfl
  have hSdbg : (chainExtend opts (acceptChar opts initialState c0 t0) cr).debugData =
      if opts.enableDebugEvents then
        { key := c0, timestamp := t0, delay := 0 } :: expectedTrace t0 cr
      else [] := by
    rw [chainExtend_debug]
    by_cases hdbg : opts.enableDebugEvents <;>
      simp [acceptChar, initialState, hdbg]
  have hterm : deliverKey opts (chainExtend opts (acceptChar opts initialState c0 t0) cr)
      opts.terminationKey tN =
      (initialState,
       [{ barcode := String.join (c0 :: cr.map Prod.fst), timestamp := tN
          keystrokes :=
            if opts.enableDebugEvents then
              some ({ key := c0, timestamp := t0, delay := 0 } :: expectedTrace t0 cr)
            else none }]) := by
    rw [deliverKey_notDue opts _ _ tN (endTime t0 cr) hStid htE2]
    rw [handleKeyDown_term opts _ tN (by rw [hSbuf]; simpa using hmin)]
    rw [hSbuf, hSdbg]
    by_cases hdbg : opts.enableDebugEvents <;> simp [hdbg]
  rw [runEvents, runFrom_append, hburst]
  simp only [runFrom, hterm]
  simp [flushTimer, initialState]

/-- A fast burst of length within `[minBarcodeLength, maxBarcodeLength]`
followed by inactivity emits exactly one scan via the inactivity timer,
stamped with the instant the timer fires. -/
theorem runEvents_goodRun_timeout (opts : BarcodeDetectorOptions) (c0 : String)
    (t0 : Nat) (cr : List (String × Nat))
    (hgood : goodRun opts ((c0, t0) :: cr) = true)
    (hmin : opts.minBarcodeLength ≤ cr.length + 1)
    (hmax : cr.length + 1 ≤ opts.maxBarcodeLength) :
    runEvents opts ((c0, t0) :: cr) =
      (initialState,
       [{ barcode := String.join (c0 :: cr.map Prod.fst)
          timestamp := endTime t0 cr + opts.maxDelay
          keystrokes :=
            if opts.enableDebugEvents then
              some ({ key := c0, timestamp := t0, delay := 0 } :: expectedTrace t0 cr)
            else none }]) := by
  rw [goodRun_cons] at hgood
  obtain ⟨hk, hne, hok⟩ := hgood
  have hburst := runFrom_burst opts c0 t0 cr hk hne hok hmax
  have hSbuf : (chainExtend opts (acceptChar opts initialState c0 t0) cr).buffer =
      c0 :: cr.map Prod.fst := by
    rw [chainExtend_buffer]
    simp [acceptChar, initialState]
  have hStid : (chainExtend opts (acceptChar opts initialState c0 t0) cr).timeoutId =
      some (endTime t0 cr) :=
    chainExtend_timeoutId opts cr _ t0 rfl
  have hSdbg : (chainExtend opts (acceptChar opts initialState c0 t0) cr).debugData =
      if opts.enableDebugEvents then
        { key := c0, timestamp := t0, delay := 0 } :: expectedTrace t0 cr
      else [] := by
    rw [chainExtend_debug]
    by_cases hdbg : opts.enableDebugEvents <;>
      simp [acceptChar, initialState, hdbg]
  have hflush : flushTimer opts (chainExtend opts (acceptChar opts initialState c0 t0) cr) =
      (initialState,
       [{ barcode := String.join (c0 :: cr.map Prod.fst)
          timestamp := endTime t0 cr + opts.maxDelay
          keystrokes :=
            if opts.enableDebugEvents then
              some ({ key := c0, timestamp := t0, delay := 0 } :: expectedTrace t0 cr)
            else none }]) := by
    rw [flushTimer, hStid]
    dsimp only
    rw [timerCallback_emit opts _ _ (by rw [hSbuf]; simpa using hmin)]
    rw [hSbuf, hSdbg]
    by_cases hdbg : opts.enableDebugEvents <;> simp [hdbg]
  rw [runEvents, hburst]
  simp only [hflush]
  simp

/-- C1, as stated, is false: with `maxBarcodeLength := 3` and
`minBarcodeLength := 1`, the single-character keys `a b c d e` arrive
1 ms apart (strictly faster than `maxDelay = 10`), followed by the
termination key, and the buffer at termination (`["e"]`) meets
`minBarcodeLength`; yet the one emitted Scan Result's barcode is `"e"`,
not the concatenation `"abcde"` of the characters in arrival order (the
overflow guard silently dropped `a b c` when `d` arrived). -/
theorem claim1_counterexample :
    (runEvents smallOptions
        [("a", 100), ("b", 101), ("c", 102), ("d", 103), ("e", 104),
         ("Enter", 105)]).2.map ScanEvent.barcode = ["e"] ∧
      "e" ≠ "abcde" := by
  constructor
  · decide
  · decide

/-- C1 (amended: the sequence must also be at most `maxBarcodeLength`
characters long).  A sequence of single-character non-termination keys
delivered strictly faster than `maxDelay` apart, followed by the
termination key within the delay window, with
`minBarcodeLength ≤ length ≤ maxBarcodeLength`, makes the detector emit
exactly one Scan Result whose barcode is the concatenation of the keys
in arrival order. -/
theorem claim1_theorem (opts : BarcodeDetectorOptions) (cs : List (String × Nat))
    (tN : Nat) (hgood : goodRun opts cs = true)
    (hlast : lastGapOK opts cs tN = true)
    (hmin : opts.minBarcodeLength ≤ cs.length)
    (hmax : cs.length ≤ opts.maxBarcodeLength) :
    (runEvents opts (cs ++ [(opts.terminationKey, tN)])).2.map ScanEvent.barcode
      = [String.join (cs.map Prod.fst)] := by
  cases cs with
  | nil =>
      have hz : opts.minBarcodeLength = 0 := Nat.le_zero.mp hmin
      have h1 : ¬ (1 < opts.terminationKey.length ∧
          opts.terminationKey ≠ opts.terminationKey) := fun h => h.2 rfl
      simp [runEvents, runFrom, deliverKey, initialState, handleKeyDown, h1, hz,
        finalizeScan, flushTimer]
  | cons p cr =>
      obtain ⟨c0, t0⟩ := p
      rw [runEvents_goodRun_term opts c0 t0 cr tN hgood hlast
        (by simpa using hmin) (by simpa using hmax)]
      simp

/-- Witness for C1's amended theorem: keys `1 2 3` at 5 ms intervals
followed by Enter 4 ms later, under the default options, emit exactly
`"123"`. -/
theorem claim1_witness :
    goodRun defaultOptions [("1", 100), ("2", 105), ("3", 110)] = true ∧
    lastGapOK defaultOptions [("1", 100), ("2", 105), ("3", 110)] 114 = true ∧
    (runEvents defaultOptions
        ([("1", 100), ("2", 105), ("3", 110)] ++
          [(defaultOptions.terminationKey, 114)])).2.map ScanEvent.barcode
      = [String.join (([("1", 100), ("2", 105), ("3", 110)] :
          List (String × Nat)).map Prod.fst)] :=
  ⟨by decide, by decide,
   claim1_theorem defaultOptions [("1", 100), ("2", 105), ("3", 110)] 114
     (by decide) (by decide) (by decide) (by decide)⟩

/-- C2, as stated, is false: under the default options the keys `1 2 3`
arrive 5 ms apart, then the next key `4` arrives after a 100 ms gap
(≥ maxDelay = 10) with no termination key pressed before the gap — yet
the run `"123"` buffered before the gap IS emitted (the inactivity
timer finalizes any run that already reached `minBarcodeLength` instead
of discarding it). -/
theorem claim2_counterexample :
    (runEvents defaultOptions
        [("1", 100), ("2", 105), ("3", 110), ("4", 210)]).2.map ScanEvent.barcode
      = ["123"] ∧ ("123" : String) ≠ "" := by
  constructor
  · decide
  · decide

/-- C2 (amended: the run before the gap must be shorter than
`minBarcodeLength`; a run that already reached the minimum is finalized
and emitted by the timer, not discarded).  A fast burst of fewer than
`minBarcodeLength` single-character keys followed by a gap of at least
`maxDelay` is discarded without any emission and leaves no trace: the
whole run's outcome is exactly that of the events after the gap alone. -/
theorem claim2_theorem (opts : BarcodeDetectorOptions) (c0 : String) (t0 : Nat)
    (cr post : List (String × Nat))
    (hgood : goodRun opts ((c0, t0) :: cr) = true)
    (hshort : cr.length + 1 < opts.minBarcodeLength)
    (hroom : cr.length + 1 ≤ opts.maxBarcodeLength)
    (hgap : gapOK (endTime t0 cr + opts.maxDelay) post = true) :
    runEvents opts (((c0, t0) :: cr) ++ post) = runEvents opts post := by
  rw [goodRun_cons] at hgood
  obtain ⟨hk, hne, hok⟩ := hgood
  have hburst := runFrom_burst opts c0 t0 cr hk hne hok hroom
  have hSbuf : (chainExtend opts (acceptChar opts initialState c0 t0) cr).buffer =
      c0 :: cr.map Prod.fst := by
    rw [chainExtend_buffer]
    simp [acceptChar, initialState]
  have hSlen : (chainExtend opts (acceptChar opts initialState c0 t0) cr).buffer.length <
      opts.minBarcodeLength := by
    rw [hSbuf]
    simpa using hshort
  have hStid : (chainExtend opts (acceptChar opts initialState c0 t0) cr).timeoutId =
      some (endTime t0 cr) :=
    chainExtend_timeoutId opts cr _ t0 rfl
  cases post with
  | nil =>
      rw [List.append_nil]
      simp only [runEvents, hburst]
      rw [flushTimer, hStid]
      dsimp only
      rw [timerCallback_discard opts _ _ hSlen]
      simp [flushTimer, runFrom, initialState]
  | cons q qs =>
      obtain ⟨kf, tf⟩ := q
      have htf : endTime t0 cr + opts.maxDelay ≤ tf := by
        simpa [gapOK, decide_eq_true_eq] using hgap
      have hstep : deliverKey opts (chainExtend opts (acceptChar opts initialState c0 t0) cr)
          kf tf = handleKeyDown opts initialState kf tf := by
        rw [deliverKey_due opts _ kf tf (endTime t0 cr) hStid htf,
          timerCallback_discard opts _ _ hSlen]
        simp
      have hstep' : deliverKey opts initialState kf tf =
          handleKeyDown opts initialState kf tf :=
        deliverKey_noTimer opts initialState kf tf rfl
      rw [runEvents, runFrom_append, hburst]
      simp only [runFrom, hstep, hstep']
      rw [runEvents]
      simp only [runFrom, hstep']
      simp

/-- Witness for C2's amended theorem: keys `1 2` (too short), a 97 ms
gap, then a fresh valid burst `9 8 7`; the overall outcome is exactly
that of the fresh burst alone. -/
theorem claim2_witness :
    goodRun defaultOptions [("1", 100), ("2", 103)] = true ∧
    (1 + 1 < defaultOptions.minBarcodeLength) ∧
    gapOK (endTime 100 [("2", 103)] + defaultOptions.maxDelay)
        [("9", 200), ("8", 203), ("7", 206)] = true ∧
    runEvents defaultOptions
        ([("1", 100), ("2", 103)] ++ [("9", 200), ("8", 203), ("7", 206)])
      = runEvents defaultOptions [("9", 200), ("8", 203), ("7", 206)] :=
  ⟨by decide, by decide, by decide,
   claim2_theorem defaultOptions "1" 100 [("2", 103)]
     [("9", 200), ("8", 203), ("7", 206)]
     (by decide) (by decide) (by decide) (by decide)⟩

/-- An accepted-shape key arriving on a full buffer triggers the
overflow guard: the whole transient state is reset and nothing is
emitted. -/
theorem handleKeyDown_overflow (opts : BarcodeDetectorOptions) (s : DetectorState)
    (key : String) (now : Nat) (hk : key.length ≤ 1)
    (hne : key ≠ opts.terminationKey)
    (hfull : opts.maxBarcodeLength ≤ s.buffer.length) :
    handleKeyDown opts s key now = (initialState, []) := by
  have h2 : ¬ (1 < key.length) := by omega
  simp [handleKeyDown, h2, hne, clearBuffer, initialState, hfull]

/-- When a prefix of the trace resets the detector exactly to the
initial state while emitting nothing, it is invisible to the overall
outcome. -/
theorem runEvents_append_reset (opts : BarcodeDetectorOptions)
    (pre post : List (String × Nat))
    (h : runFrom opts initialState pre = (initialState, [])) :
    runEvents opts (pre ++ post) = runEvents opts post := by
  rw [runEvents, runFrom_append, h]
  rw [runEvents]
  simp

/-- A fast in-window burst that overruns the buffer limit by one
character ends in the overflow guard: full reset, nothing emitted. -/
theorem runFrom_overflow (opts : BarcodeDetectorOptions) (cr : List (String × Nat)) :
    ∀ (s : DetectorState) (tp : Nat),
      afterOK opts tp cr = true → s.timeoutId = some tp →
      s.buffer.length ≤ opts.maxBarcodeLength →
      s.buffer.length + cr.length = opts.maxBarcodeLength + 1 →
      runFrom opts s cr = (initialState, []) := by
  induction cr with
  | nil =>
      intro s tp _ _ hle heq
      exfalso
      simp only [List.length_nil, Nat.add_zero] at heq
      omega
  | cons p rest ih =>
      obtain ⟨k, t⟩ := p
      intro s tp hok htid hle heq
      rw [afterOK_cons] at hok
      obtain ⟨hk, hne, hle', hlt, hrest⟩ := hok
      simp only [List.length_cons] at heq
      by_cases hfull : opts.maxBarcodeLength ≤ s.buffer.length
      · have hrest0 : rest = [] := by
          have : rest.length = 0 := by omega
          exact List.length_eq_zero.mp this
        subst hrest0
        have hstep : deliverKey opts s k t = (initialState, []) := by
          rw [deliverKey_notDue opts s k t tp htid hlt]
          exact handleKeyDown_overflow opts s k t (by omega) hne hfull
        simp [runFrom, hstep]
      · have hroom : s.buffer.length < opts.maxBarcodeLength := Nat.not_le.mp hfull
        have hstep : deliverKey opts s k t = (acceptChar opts s k t, []) := by
          rw [deliverKey_notDue opts s k t tp htid hlt]
          exact handleKeyDown_accept opts s k t hk hne hroom
        have htail : runFrom opts (acceptChar opts s k t) rest = (initialState, []) := by
          refine ih (acceptChar opts s k t) t hrest rfl ?_ ?_ <;>
            simp only [acceptChar, List.length_append, List.length_cons,
              List.length_nil] <;> omega
        simp [runFrom, hstep, htail]

/-- C3, as stated, is false: with `maxBarcodeLength := 3` and
`minBarcodeLength := 1`, the keys `a b c` arrive 1 ms apart — the
buffered run reaches `maxBarcodeLength` characters before any
termination key — and the subsequent Enter emits the Scan Result
`"abc"` instead of the discard the claim requires (the termination
branch runs before the overflow guard, so a run of exactly
`maxBarcodeLength` characters is emitted, not discarded). -/
theorem claim3_counterexample :
    (runEvents smallOptions
        [("a", 100), ("b", 101), ("c", 102), ("Enter", 103)]).2.map
        ScanEvent.barcode = ["abc"] ∧
      (runEvents smallOptions
        [("a", 100), ("b", 101), ("c", 102), ("Enter", 103)]).2 ≠ [] := by
  constructor
  · decide
  · decide

/-- C3 (amended: the run must EXCEED the limit — a character must
arrive while the buffer already holds `maxBarcodeLength` entries; a run
of exactly `maxBarcodeLength` characters is still finalizable).  A fast
burst of `maxBarcodeLength + 1` single-character keys is discarded at
its last character without emitting anything — no truncated barcode is
ever emitted from it, and the detector is reset exactly to its initial
state, so the overall outcome is that of the subsequent events alone. -/
theorem claim3_theorem (opts : BarcodeDetectorOptions) (c0 : String) (t0 : Nat)
    (cr post : List (String × Nat))
    (hgood : goodRun opts ((c0, t0) :: cr) = true)
    (hlen : cr.length = opts.maxBarcodeLength) :
    runEvents opts (((c0, t0) :: cr) ++ post) = runEvents opts post := by
  rw [goodRun_cons] at hgood
  obtain ⟨hk, hne, hok⟩ := hgood
  refine runEvents_append_reset opts _ post ?_
  by_cases hmb : opts.maxBarcodeLength = 0
  · have hcr : cr = [] := List.length_eq_zero.mp (by rw [hlen, hmb])
    subst hcr
    have h0 : deliverKey opts initialState c0 t0 = (initialState, []) := by
      rw [deliverKey_noTimer opts initialState c0 t0 rfl]
      exact handleKeyDown_overflow opts initialState c0 t0 (by omega) hne
        (by simp [initialState, hmb])
    simp [runFrom, h0]
  · have h0 : deliverKey opts initialState c0 t0 =
        (acceptChar opts initialState c0 t0, []) := by
      rw [deliverKey_noTimer opts initialState c0 t0 rfl]
      exact handleKeyDown_accept opts initialState c0 t0 hk hne
        (by simp [initialState]; omega)
    have htail : runFrom opts (acceptChar opts initialState c0 t0) cr =
        (initialState, []) := by
      refine runFrom_overflow opts cr _ t0 hok rfl ?_ ?_ <;>
        simp only [acceptChar, initialState, List.length_append, List.length_nil,
          List.length_cons] <;> omega
    simp [runFrom, h0, htail]

/-- Witness for C3's amended theorem: with `maxBarcodeLength := 3`, the
four fast keys `a b c d` overflow and vanish; the outcome equals that
of the later burst `9 8 7` alone. -/
theorem claim3_witness :
    goodRun smallOptions [("a", 100), ("b", 101), ("c", 102), ("d", 103)] = true ∧
    ([("b", 101), ("c", 102), ("d", 103)] : List (String × Nat)).length
      = smallOptions.maxBarcodeLength ∧
    runEvents smallOptions
        ([("a", 100), ("b", 101), ("c", 102), ("d", 103)] ++
          [("9", 200), ("8", 201), ("7", 202)])
      = runEvents smallOptions [("9", 200), ("8", 201), ("7", 202)] :=
  ⟨by decide, by decide,
   claim3_theorem smallOptions "a" 100 [("b", 101), ("c", 102), ("d", 103)]
     [("9", 200), ("8", 201), ("7", 202)] (by decide) (by decide)⟩

/-- C4, as stated, is false for the unsubscribe path: after the last
remaining unsubscribe empties the subscriber set (detaching the key
observer), a pending inactivity timer is NOT cancelled — here the
detector buffered `"a"` at time 5 before the unsubscribe, and the
subsequent timer firing still mutates the state (clearing the buffer,
debug trace, last-event timestamp and timer). -/
theorem claim4_counterexample :
    c4Detector.listeners = [] ∧ (timerFire c4Detector).1.state ≠ c4Detector.state := by
  constructor
  · decide
  · decide

/-- C4 (amended: only `destroy()` cancels everything; the last
unsubscribe stops key processing but leaves a pending timer free to
fire once).  After `destroy()`, no key event and no timer firing ever
mutates the detector again; after an unsubscribe that empties the
subscriber set, no key event is processed (the host observer is
detached), but the pending inactivity timer is not cancelled. -/
theorem claim4_theorem :
    (∀ (d : Detector) (key : String) (now : Nat),
       domKeydown (destroy d) key now = (destroy d, [])) ∧
    (∀ d : Detector, timerFire (destroy d) = (destroy d, [])) ∧
    (∀ (d : Detector) (l : Nat) (key : String) (now : Nat),
       (unsubscribe d l).listeners = [] →
       domKeydown (unsubscribe d l) key now = (unsubscribe d l, [])) := by
  refine ⟨?_, ?_, ?_⟩
  · intro d key now
    simp [domKeydown, destroy]
  · intro d
    simp [timerFire, destroy, clearBuffer]
  · intro d l key now hempty
    have hatt : (unsubscribe d l).isAttached = false := by
      by_cases hc : d.listeners.erase l = [] ∧ d.isAttached = true
      · simp [unsubscribe, hc]
      · simp only [unsubscribe, if_neg hc]
        simp only [unsubscribe, if_neg hc] at hempty
        rcases Decidable.not_and_iff_or_not.mp hc with h | h
        · exact absurd hempty h
        · simpa using h
    simp [domKeydown, hatt]

/-- Witness for C4's amended theorem, at a destroyed detector with one
listener and a buffered character, and at the unsubscribed `c4Detector`. -/
theorem claim4_witness :
    c4Detector.listeners = [] ∧
    domKeydown (destroy (onScan (mkDetector defaultOptions) 0)) "x" 20
      = (destroy (onScan (mkDetector defaultOptions) 0), []) ∧
    timerFire (destroy (onScan (mkDetector defaultOptions) 0))
      = (destroy (onScan (mkDetector defaultOptions) 0), []) ∧
    domKeydown (unsubscribe (domKeydown (onScan (mkDetector defaultOptions) 0) "a" 5).1 0)
        "x" 20
      = (unsubscribe (domKeydown (onScan (mkDetector defaultOptions) 0) "a" 5).1 0, []) :=
  ⟨by decide,
   claim4_theorem.1 (onScan (mkDetector defaultOptions) 0) "x" 20,
   claim4_theorem.2.1 (onScan (mkDetector defaultOptions) 0),
   claim4_theorem.2.2 (domKeydown (onScan (mkDetector defaultOptions) 0) "a" 5).1 0 "x" 20
     (by decide)⟩

/-- C5, as stated, is false for the empty key identifier: the ignore
filter tests only `key.length > 1`, so the empty key (length 0) passes
it — under the default options it is buffered (as a zero-length entry),
updates the last-event timestamp and schedules the timer, mutating the
state. -/
theorem claim5_counterexample :
    (handleKeyDown defaultOptions initialState "" 7).1 ≠ initialState := by
  decide

/-- C5 (amended: only keys LONGER than one character that are not the
termination key are ignored; one-character keys, the termination key
and also the empty key identifier are all processed).  Every key event
whose identifier is longer than one character and differs from the
configured termination key is silently ignored with no state change and
no emission. -/
theorem claim5_theorem (opts : BarcodeDetectorOptions) (s : DetectorState)
    (key : String) (now : Nat) (hlong : 1 < key.length)
    (hne : key ≠ opts.terminationKey) :
    handleKeyDown opts s key now = (s, []) := by
  simp [handleKeyDown, hlong, hne]

/-- Witness for C5's amended theorem: the modifier key `"Shift"` leaves
an arbitrary concrete state untouched. -/
theorem claim5_witness :
    1 < ("Shift" : String).length ∧
    ("Shift" : String) ≠ defaultOptions.terminationKey ∧
    handleKeyDown defaultOptions
        { buffer := ["1"], debugData := [], lastKeystrokeTime := 4, timeoutId := some 4 }
        "Shift" 9
      = ({ buffer := ["1"], debugData := [], lastKeystrokeTime := 4, timeoutId := some 4 },
         []) :=
  ⟨by decide, by decide,
   claim5_theorem defaultOptions
     { buffer := ["1"], debugData := [], lastKeystrokeTime := 4, timeoutId := some 4 }
     "Shift" 9 (by decide) (by decide)⟩

/-- C6, as stated, is false: with `maxBarcodeLength := 2` the two fast
keys `a b` drive the buffer to length exactly `maxBarcodeLength` while
still accumulating (the inactivity timer is pending) — the buffer is
not cleared the instant it reaches the limit, only when a further
character arrives. -/
theorem claim6_counterexample :
    ¬ ((runFrom maxTwoOptions initialState [("a", 1), ("b", 2)]).1.buffer.length <
        maxTwoOptions.maxBarcodeLength) ∧
    (runFrom maxTwoOptions initialState [("a", 1), ("b", 2)]).1.timeoutId = some 2 := by
  constructor
  · decide
  · decide

/-- C6 (amended: the buffer's length never exceeds `maxBarcodeLength` —
it may reach exactly the limit — and it is cleared, not truncated, when
the NEXT character arrives while at the limit).  The bound `≤
maxBarcodeLength` holds initially and is preserved by every delivered
key event (including any timer firing it triggers), and a key arriving
on a full buffer resets the state entirely, emitting nothing. -/
theorem claim6_theorem (opts : BarcodeDetectorOptions) :
    initialState.buffer.length ≤ opts.maxBarcodeLength ∧
    (∀ (s : DetectorState) (key : String) (now : Nat),
       s.buffer.length ≤ opts.maxBarcodeLength →
       (deliverKey opts s key now).1.buffer.length ≤ opts.maxBarcodeLength) ∧
    (∀ (s : DetectorState) (key : String) (now : Nat),
       key.length ≤ 1 → key ≠ opts.terminationKey →
       opts.maxBarcodeLength ≤ s.buffer.length →
       handleKeyDown opts s key now = (initialState, [])) := by
  refine ⟨by simp [initialState], ?_, ?_⟩
  · intro s key now hle
    have hstep : ∀ s' : DetectorState, s'.buffer.length ≤ opts.maxBarcodeLength →
        (handleKeyDown opts s' key now).1.buffer.length ≤ opts.maxBarcodeLength := by
      intro s' hle'
      by_cases h1 : 1 < key.length ∧ key ≠ opts.terminationKey
      · simp [handleKeyDown, h1, hle']
      · by_cases h2 : key = opts.terminationKey
        · by_cases h3 : opts.minBarcodeLength ≤ s'.buffer.length
          · simp [handleKeyDown, h1, h2, h3, finalizeScan]
          · simp [handleKeyDown, h1, h2, h3, clearBuffer]
        · by_cases h4 : opts.maxBarcodeLength ≤ s'.buffer.length
          · by_cases h5 : 1 < key.length
            · simp [handleKeyDown, h5, h2, hle']
            · simp [handleKeyDown, h5, h2, h4, clearBuffer]
          · simp only [handleKeyDown, if_neg h1, if_neg h2]
            rw [if_neg h4]
            simp only [acceptChar, List.length_append, List.length_cons,
              List.length_nil]
            omega
    match htid : s.timeoutId with
    | some t0 =>
        by_cases hdue : t0 + opts.maxDelay ≤ now
        · rw [deliverKey_due opts s key now t0 htid hdue]
          refine hstep _ ?_
          by_cases hmin : opts.minBarcodeLength ≤ s.buffer.length
          · rw [timerCallback_emit opts s _ hmin]
            simp [initialState]
          · rw [timerCallback_discard opts s _ (Nat.not_le.mp hmin)]
            simp [initialState]
        · rw [deliverKey_notDue opts s key now t0 htid (Nat.not_le.mp hdue)]
          exact hstep s hle
    | none =>
        rw [deliverKey_noTimer opts s key now htid]
        exact hstep s hle
  · intro s key now hk hne hfull
    exact handleKeyDown_overflow opts s key now hk hne hfull

/-- Witness for C6's amended theorem with `maxBarcodeLength := 2`: the
bound is preserved when a third fast key arrives on the full buffer
`["a", "b"]`, and that key resets the state without emitting. -/
theorem claim6_witness :
    ({ buffer := ["a", "b"], debugData := [], lastKeystrokeTime := 2,
       timeoutId := some 2 } : DetectorState).buffer.length
        ≤ maxTwoOptions.maxBarcodeLength ∧
    (deliverKey maxTwoOptions
        { buffer := ["a", "b"], debugData := [], lastKeystrokeTime := 2,
          timeoutId := some 2 } "c" 3).1.buffer.length
      ≤ maxTwoOptions.maxBarcodeLength ∧
    handleKeyDown maxTwoOptions
        { buffer := ["a", "b"], debugData := [], lastKeystrokeTime := 2,
          timeoutId := some 2 } "c" 3
      = (initialState, []) :=
  ⟨by decide,
   (claim6_theorem maxTwoOptions).2.1
     { buffer := ["a", "b"], debugData := [], lastKeystrokeTime := 2,
       timeoutId := some 2 } "c" 3 (by decide),
   (claim6_theorem maxTwoOptions).2.2
     { buffer := ["a", "b"], debugData := [], lastKeystrokeTime := 2,
       timeoutId := some 2 } "c" 3 (by decide) (by decide) (by decide)⟩

/-- C7 is a code bug: the `preventDefault` option promises ("Prevent the
KeyboardEvent from bubbling through DOM") that accepted key presses get
their default action suppressed, but `handleKeyDown` never calls
`event.preventDefault()` (or `event.stopPropagation()`) on any path —
the option is read nowhere outside the constructor.  Even with
`preventDefault := true`, no key press ever has its default suppressed. -/
theorem claim7_theorem :
    pdOptions.preventDefault = true ∧
    ∀ (opts : BarcodeDetectorOptions) (s : DetectorState) (key : String) (now : Nat),
      handleKeyDownPreventsDefault opts s key now = false :=
  ⟨rfl, fun _ _ _ _ => rfl⟩

/-- In debug mode off, the delays embedded by the accept path coincide
with the actual inter-arrival gaps as soon as every involved timestamp
is nonzero (as `Date.now()` always is). -/
theorem expectedTrace_eq_gapTrace (cr : List (String × Nat)) :
    ∀ tp : Nat, tp ≠ 0 → (∀ p ∈ cr, Prod.snd p ≠ 0) →
      expectedTrace tp cr = gapTrace tp cr := by
  induction cr with
  | nil => intro tp _ _; rfl
  | cons p rest ih =>
      obtain ⟨k, t⟩ := p
      intro tp htp hall
      have ht : t ≠ 0 := hall (k, t) (List.mem_cons_self _ _)
      have hrest : ∀ q ∈ rest, Prod.snd q ≠ 0 :=
        fun q hq => hall q (List.mem_cons_of_mem _ hq)
      simp [expectedTrace, gapTrace, htp, ih t ht hrest]

/-- Every event emitted during one `handleKeyDown` call snapshots the
debug trace exactly when debug mode is on. -/
theorem handleKeyDown_keystrokes (opts : BarcodeDetectorOptions) (s : DetectorState)
    (key : String) (now : Nat) :
    ∀ ev ∈ (handleKeyDown opts s key now).2,
      ev.keystrokes = if opts.enableDebugEvents then some s.debugData else none := by
  intro ev hev
  simp only [handleKeyDown] at hev
  split at hev
  · simp at hev
  · split at hev
    · split at hev
      · simp only [finalizeScan, List.mem_singleton] at hev
        simp [hev]
      · simp at hev
    · split at hev
      · simp at hev
      · simp at hev

/-- Every event emitted by the timer callback snapshots the debug trace
exactly when debug mode is on. -/
theorem timerCallback_keystrokes (opts : BarcodeDetectorOptions) (s : DetectorState)
    (fireAt : Nat) :
    ∀ ev ∈ (timerCallback opts s fireAt).2,
      ev.keystrokes = if opts.enableDebugEvents then some s.debugData else none := by
  intro ev hev
  simp only [timerCallback] at hev
  split at hev
  · simp only [finalizeScan, List.mem_singleton] at hev
    simp [hev]
  · simp at hev

/-- With debug mode off, no event delivered by one key step carries a
keystroke trace. -/
theorem deliverKey_keystrokes_none (opts : BarcodeDetectorOptions)
    (h : opts.enableDebugEvents = false) (s : DetectorState) (key : String)
    (now : Nat) : ∀ ev ∈ (deliverKey opts s key now).2, ev.keystrokes = none := by
  intro ev hev
  cases htid : s.timeoutId with
  | none =>
      rw [deliverKey_noTimer opts s key now htid] at hev
      have := handleKeyDown_keystrokes opts s key now ev hev
      rwa [h, if_neg (by simp)] at this
  | some t0 =>
      by_cases hdue : t0 + opts.maxDelay ≤ now
      · rw [deliverKey_due opts s key now t0 htid hdue] at hev
        simp only [List.mem_append] at hev
        rcases hev with hev | hev
        · have := timerCallback_keystrokes opts s (t0 + opts.maxDelay) ev hev
          rwa [h, if_neg (by simp)] at this
        · have := handleKeyDown_keystrokes opts _ key now ev hev
          rwa [h, if_neg (by simp)] at this
      · rw [deliverKey_notDue opts s key now t0 htid (Nat.not_le.mp hdue)] at hev
        have := handleKeyDown_keystrokes opts s key now ev hev
        rwa [h, if_neg (by simp)] at this

/-- With debug mode off, no event emitted over a whole trace carries a
keystroke trace. -/
theorem runEvents_keystrokes_none (opts : BarcodeDetectorOptions)
    (h : opts.enableDebugEvents = false) (evs : List (String × Nat)) :
    ∀ ev ∈ (runEvents opts evs).2, ev.keystrokes = none := by
  have hrun : ∀ (l : List (String × Nat)) (s : DetectorState),
      ∀ ev ∈ (runFrom opts s l).2, ev.keystrokes = none := by
    intro l
    induction l with
    | nil => intro s ev hev; simp [runFrom] at hev
    | cons p rest ih =>
        obtain ⟨k, t⟩ := p
        intro s ev hev
        simp only [runFrom, List.mem_append] at hev
        rcases hev with hev | hev
        · exact deliverKey_keystrokes_none opts h s k t ev hev
        · exact ih _ ev hev
  intro ev hev
  simp only [runEvents, List.mem_append] at hev
  rcases hev with hev | hev
  · exact hrun evs initialState ev hev
  · rcases htid : (runFrom opts initialState evs).1.timeoutId with _ | t0
    · rw [flushTimer, htid] at hev
      simp at hev
    · rw [flushTimer, htid] at hev
      have := timerCallback_keystrokes opts _ _ ev hev
      rwa [h, if_neg (by simp)] at this

/-- C8: debug-mode round trip.  (i) With debug mode on, a fast run
terminated by the termination key emits exactly one Scan Result whose
trace has one entry per accepted character — keys and timestamps in
arrival order — the first entry's delay 0 and every later delay the
actual inter-arrival gap (timestamps are nonzero, as `Date.now()`
always is).  (ii) The same holds for a run completed by the inactivity
timeout.  (iii) With debug mode off, no emitted Scan Result ever
carries a `keystrokes` field. -/
theorem claim8_theorem :
    (∀ (opts : BarcodeDetectorOptions) (c0 : String) (t0 : Nat)
       (cr : List (String × Nat)) (tN : Nat),
       opts.enableDebugEvents = true →
       goodRun opts ((c0, t0) :: cr) = true →
       lastGapOK opts ((c0, t0) :: cr) tN = true →
       opts.minBarcodeLength ≤ cr.length + 1 →
       cr.length + 1 ≤ opts.maxBarcodeLength →
       t0 ≠ 0 → (∀ p ∈ cr, Prod.snd p ≠ 0) →
       (runEvents opts (((c0, t0) :: cr) ++ [(opts.terminationKey, tN)])).2
         = [{ barcode := String.join (c0 :: cr.map Prod.fst), timestamp := tN
              keystrokes := some (traceSpec ((c0, t0) :: cr)) }]) ∧
    (∀ (opts : BarcodeDetectorOptions) (c0 : String) (t0 : Nat)
       (cr : List (String × Nat)),
       opts.enableDebugEvents = true →
       goodRun opts ((c0, t0) :: cr) = true →
       opts.minBarcodeLength ≤ cr.length + 1 →
       cr.length + 1 ≤ opts.maxBarcodeLength →
       t0 ≠ 0 → (∀ p ∈ cr, Prod.snd p ≠ 0) →
       (runEvents opts ((c0, t0) :: cr)).2
         = [{ barcode := String.join (c0 :: cr.map Prod.fst)
              timestamp := endTime t0 cr + opts.maxDelay
              keystrokes := some (traceSpec ((c0, t0) :: cr)) }]) ∧
    (∀ (opts : BarcodeDetectorOptions) (evs : List (String × Nat)),
       opts.enableDebugEvents = false →
       ∀ ev ∈ (runEvents opts evs).2, ev.keystrokes = none) := by
  refine ⟨?_, ?_, ?_⟩
  · intro opts c0 t0 cr tN hdbg hgood hlast hmin hmax ht0 hall
    rw [runEvents_goodRun_term opts c0 t0 cr tN hgood hlast hmin hmax]
    rw [expectedTrace_eq_gapTrace cr t0 ht0 hall]
    simp [hdbg, traceSpec]
  · intro opts c0 t0 cr hdbg hgood hmin hmax ht0 hall
    rw [runEvents_goodRun_timeout opts c0 t0 cr hgood hmin hmax]
    rw [expectedTrace_eq_gapTrace cr t0 ht0 hall]
    simp [hdbg, traceSpec]
  · intro opts evs hdbg
    exact runEvents_keystrokes_none opts hdbg evs

/-- Witness for C8: with debug on, `1 2 3` at 5 ms intervals yields the
trace `[⟨1,100,0⟩, ⟨2,105,5⟩, ⟨3,110,5⟩]` both when Enter-terminated
(stamped 114) and when timeout-completed (stamped 120); with debug off
the same run emits no trace. -/
theorem claim8_witness :
    debugOptions.enableDebugEvents = true ∧
    (runEvents debugOptions
        (((("1" : String), (100 : Nat)) :: [("2", 105), ("3", 110)]) ++
          [(debugOptions.terminationKey, 114)])).2
      = [{ barcode := String.join ("1" :: ([(("2" : String), (105 : Nat)), ("3", 110)]).map Prod.fst)
           timestamp := 114
           keystrokes := some (traceSpec ((("1" : String), (100 : Nat)) :: [("2", 105), ("3", 110)])) }] ∧
    (runEvents debugOptions ((("1" : String), (100 : Nat)) :: [("2", 105), ("3", 110)])).2
      = [{ barcode := String.join ("1" :: ([(("2" : String), (105 : Nat)), ("3", 110)]).map Prod.fst)
           timestamp := endTime 100 [(("2" : String), (105 : Nat)), ("3", 110)] + debugOptions.maxDelay
           keystrokes := some (traceSpec ((("1" : String), (100 : Nat)) :: [("2", 105), ("3", 110)])) }] ∧
    (⟨"123", 120, none⟩ : ScanEvent) ∈
        (runEvents defaultOptions [("1", 100), ("2", 105), ("3", 110)]).2 ∧
    (⟨"123", 120, none⟩ : ScanEvent).keystrokes = none :=
  ⟨rfl,
   claim8_theorem.1 debugOptions "1" 100 [("2", 105), ("3", 110)] 114 rfl
     (by decide) (by decide) (by decide) (by decide) (by decide)
     (by intro p hp; fin_cases hp <;> decide),
   claim8_theorem.2.1 debugOptions "1" 100 [("2", 105), ("3", 110)] rfl
     (by decide) (by decide) (by decide) (by decide)
     (by intro p hp; fin_cases hp <;> decide),
   by decide,
   claim8_theorem.2.2 defaultOptions [("1", 100), ("2", 105), ("3", 110)] rfl
     ⟨"123", 120, none⟩ (by decide)⟩

/-- A sum of naturals each at most 1 is at most the number of summands. -/
theorem sum_le_length_of_le_one (l : List Nat) (h : ∀ x ∈ l, x ≤ 1) :
    l.sum ≤ l.length := by
  induction l with
  | nil => simp
  | cons a as ih =>
      simp only [List.sum_cons, List.length_cons]
      have ha := h a (List.mem_cons_self _ _)
      have has := ih (fun x hx => h x (List.mem_cons_of_mem _ hx))
      omega

/-- Joining a list of at-most-one-character strings yields a string no
longer than the list. -/
theorem join_length_le (l : List String) (h : ∀ c ∈ l, c.length ≤ 1) :
    (String.join l).length ≤ l.length := by
  rw [String.join_eq, String.length_eq_list_length, List.length_flatten]
  have hmap : (l.map String.data).map List.length = l.map String.length := by
    rw [List.map_map]
    rfl
  rw [hmap]
  have := sum_le_length_of_le_one (l.map String.length) (by
    intro x hx
    obtain ⟨c, hc, rfl⟩ := List.mem_map.mp hx
    exact h c hc)
  simpa using this

/-- One `handleKeyDown` call preserves the buffer invariant, and every
event it emits has a barcode within `maxBarcodeLength`. -/
theorem handleKeyDown_stateOK (opts : BarcodeDetectorOptions) (s : DetectorState)
    (key : String) (now : Nat) (h : stateOK opts s) :
    stateOK opts (handleKeyDown opts s key now).1 ∧
    ∀ ev ∈ (handleKeyDown opts s key now).2,
      ev.barcode.length ≤ opts.maxBarcodeLength := by
  obtain ⟨hlen, helem⟩ := h
  have hjoin : (String.join s.buffer).length ≤ opts.maxBarcodeLength :=
    le_trans (join_length_le s.buffer helem) hlen
  by_cases h1 : 1 < key.length ∧ key ≠ opts.terminationKey
  · have hstep : handleKeyDown opts s key now = (s, []) := by
      simp [handleKeyDown, h1]
    rw [hstep]
    exact ⟨⟨hlen, helem⟩, by simp⟩
  · by_cases h2 : key = opts.terminationKey
    · by_cases h3 : opts.minBarcodeLength ≤ s.buffer.length
      · constructor
        · simp [handleKeyDown, h1, h2, h3, finalizeScan, stateOK]
        · intro ev hev
          simp only [handleKeyDown, if_neg h1] at hev
          rw [if_pos h2] at hev
          rw [if_pos h3] at hev
          simp only [finalizeScan, List.mem_singleton] at hev
          subst hev
          exact hjoin
      · refine ⟨?_, ?_⟩ <;>
          simp [handleKeyDown, h1, h2, h3, clearBuffer, stateOK]
    · by_cases h4 : opts.maxBarcodeLength ≤ s.buffer.length
      · by_cases h5 : 1 < key.length
        · have hstep : handleKeyDown opts s key now = (s, []) := by
            simp [handleKeyDown, h5, h2]
          rw [hstep]
          exact ⟨⟨hlen, helem⟩, by simp⟩
        · refine ⟨?_, ?_⟩ <;>
            simp [handleKeyDown, h5, h2, h4, clearBuffer, stateOK]
      · have h5 : ¬ (1 < key.length) := fun hc => h1 ⟨hc, h2⟩
        constructor
        · simp only [handleKeyDown, if_neg h1, if_neg h2]
          rw [if_neg h4]
          constructor
          · simp only [acceptChar, List.length_append, List.length_cons,
              List.length_nil]
            omega
          · intro c hc
            simp only [acceptChar, List.mem_append, List.mem_singleton] at hc
            rcases hc with hc | hc
            · exact helem c hc
            · subst hc; omega
        · intro ev hev
          simp only [handleKeyDown, if_neg h1, if_neg h2] at hev
          rw [if_neg h4] at hev
          simp at hev

/-- The timer callback preserves the buffer invariant and emits only
bounded barcodes. -/
theorem timerCallback_stateOK (opts : BarcodeDetectorOptions) (s : DetectorState)
    (fireAt : Nat) (h : stateOK opts s) :
    stateOK opts (timerCallback opts s fireAt).1 ∧
    ∀ ev ∈ (timerCallback opts s fireAt).2,
      ev.barcode.length ≤ opts.maxBarcodeLength := by
  obtain ⟨hlen, helem⟩ := h
  have hjoin : (String.join s.buffer).length ≤ opts.maxBarcodeLength :=
    le_trans (join_length_le s.buffer helem) hlen
  by_cases hmin : opts.minBarcodeLength ≤ s.buffer.length
  · rw [timerCallback_emit opts s fireAt hmin]
    refine ⟨by simp [stateOK, initialState], ?_⟩
    intro ev hev
    simp only [List.mem_singleton] at hev
    subst hev
    exact hjoin
  · rw [timerCallback_discard opts s fireAt (Nat.not_le.mp hmin)]
    exact ⟨by simp [stateOK, initialState], by simp⟩

/-- One delivered key event (including any timer callback it triggers)
preserves the buffer invariant and emits only bounded barcodes. -/
theorem deliverKey_stateOK (opts : BarcodeDetectorOptions) (s : DetectorState)
    (key : String) (now : Nat) (h : stateOK opts s) :
    stateOK opts (deliverKey opts s key now).1 ∧
    ∀ ev ∈ (deliverKey opts s key now).2,
      ev.barcode.length ≤ opts.maxBarcodeLength := by
  cases htid : s.timeoutId with
  | none =>
      rw [deliverKey_noTimer opts s key now htid]
      exact handleKeyDown_stateOK opts s key now h
  | some t0 =>
      by_cases hdue : t0 + opts.maxDelay ≤ now
      · rw [deliverKey_due opts s key now t0 htid hdue]
        obtain ⟨hT1, hT2⟩ := timerCallback_stateOK opts s (t0 + opts.maxDelay) h
        obtain ⟨hH1, hH2⟩ :=
          handleKeyDown_stateOK opts (timerCallback opts s (t0 + opts.maxDelay)).1
            key now hT1
        refine ⟨hH1, ?_⟩
        intro ev hev
        simp only [List.mem_append] at hev
        rcases hev with hev | hev
        · exact hT2 ev hev
        · exact hH2 ev hev
      · rw [deliverKey_notDue opts s key now t0 htid (Nat.not_le.mp hdue)]
        exact handleKeyDown_stateOK opts s key now h

/-- The buffer invariant holds along any trace and bounds every
emission. -/
theorem runFrom_stateOK (opts : BarcodeDetectorOptions) (evs : List (String × Nat)) :
    ∀ s : DetectorState, stateOK opts s →
      stateOK opts (runFrom opts s evs).1 ∧
      ∀ ev ∈ (runFrom opts s evs).2,
        ev.barcode.length ≤ opts.maxBarcodeLength := by
  induction evs with
  | nil => intro s hs; exact ⟨hs, by simp [runFrom]⟩
  | cons p rest ih =>
      obtain ⟨k, t⟩ := p
      intro s hs
      obtain ⟨hd1, hd2⟩ := deliverKey_stateOK opts s k t hs
      obtain ⟨hr1, hr2⟩ := ih (deliverKey opts s k t).1 hd1
      refine ⟨by simpa [runFrom] using hr1, ?_⟩
      intro ev hev
      simp only [runFrom, List.mem_append] at hev
      rcases hev with hev | hev
      · exact hd2 ev hev
      · exact hr2 ev hev

/-- C9: at every state reachable from the initial state by delivering
key events, the buffer holds at most `maxBarcodeLength` entries (the
embedding's `Nat`-valued `maxBarcodeLength` is inherently
non-negative), and every Scan Result ever emitted over a trace —
including by the trailing inactivity timer — has a barcode of length at
most `maxBarcodeLength`. -/
theorem claim9_theorem (opts : BarcodeDetectorOptions) (evs : List (String × Nat)) :
    (runFrom opts initialState evs).1.buffer.length ≤ opts.maxBarcodeLength ∧
    ∀ ev ∈ (runEvents opts evs).2, ev.barcode.length ≤ opts.maxBarcodeLength := by
  have hinit : stateOK opts initialState := by simp [stateOK, initialState]
  obtain ⟨hr1, hr2⟩ := runFrom_stateOK opts evs initialState hinit
  refine ⟨hr1.1, ?_⟩
  intro ev hev
  simp only [runEvents, List.mem_append] at hev
  rcases hev with hev | hev
  · exact hr2 ev hev
  · rcases htid : (runFrom opts initialState evs).1.timeoutId with _ | t0
    · rw [flushTimer, htid] at hev
      simp at hev
    · rw [flushTimer, htid] at hev
      exact (timerCallback_stateOK opts _ _ hr1).2 ev hev

/-- Witness for C9: under the default options, after the fast keys
`1 2 3` the buffer length is within the limit, and the emitted scan
`"123"` (completed by the trailing timer) has a barcode within the
limit. -/
theorem claim9_witness :
    (⟨"123", 120, none⟩ : ScanEvent) ∈
        (runEvents defaultOptions [("1", 100), ("2", 105), ("3", 110)]).2 ∧
    (runFrom defaultOptions initialState
        [("1", 100), ("2", 105), ("3", 110)]).1.buffer.length
      ≤ defaultOptions.maxBarcodeLength ∧
    (⟨"123", 120, none⟩ : ScanEvent).barcode.length
      ≤ defaultOptions.maxBarcodeLength :=
  ⟨by decide,
   (claim9_theorem defaultOptions [("1", 100), ("2", 105), ("3", 110)]).1,
   (claim9_theorem defaultOptions [("1", 100), ("2", 105), ("3", 110)]).2
     ⟨"123", 120, none⟩ (by decide)⟩

/-- `onScan` only ever appends a not-yet-registered listener to the set. -/
theorem onScan_listeners (d : Detector) (l : Nat) :
    (onScan d l).listeners =
      if l ∈ d.listeners then d.listeners else d.listeners ++ [l] := by
  simp only [onScan]
  split <;> split <;> rfl

/-- The unsubscribe closure always removes (one occurrence of) the
captured listener. -/
theorem unsubscribe_listeners (d : Detector) (l : Nat) :
    (unsubscribe d l).listeners = d.listeners.erase l := by
  simp only [unsubscribe]
  split <;> rfl

/-- `onScan` keeps the subscriber set duplicate-free. -/
theorem onScan_nodup (d : Detector) (l : Nat) (h : d.listeners.Nodup) :
    (onScan d l).listeners.Nodup := by
  rw [onScan_listeners]
  split
  · exact h
  · next hmem =>
      refine List.Nodup.append h (List.nodup_singleton l) ?_
      intro a ha hb
      simp only [List.mem_singleton] at hb
      subst hb
      exact hmem ha

/-- C10: registering the same listener reference through two separate
`onScan` calls keeps it in the set once; calling either returned
unsubscribe closure (both delete that same reference) removes it
completely — it is a member of the subscriber set no longer, hence
receives no further Scan Results — and, when it was the only listener,
the host key observer is detached. -/
theorem claim10_theorem (d : Detector) (l : Nat) (hnd : d.listeners.Nodup) :
    l ∉ (unsubscribe (onScan (onScan d l) l) l).listeners ∧
    ((onScan (onScan d l) l).listeners = [l] →
      (unsubscribe (onScan (onScan d l) l) l).isAttached = false) := by
  have hnd2 : (onScan (onScan d l) l).listeners.Nodup :=
    onScan_nodup _ l (onScan_nodup d l hnd)
  constructor
  · rw [unsubscribe_listeners]
    intro hmem
    exact ((List.Nodup.mem_erase_iff hnd2).mp hmem).1 rfl
  · intro heq
    simp only [unsubscribe, heq]
    have herase : ([l] : List Nat).erase l = [] := by simp
    rw [herase]
    by_cases hatt : (onScan (onScan d l) l).isAttached = true
    · simp [hatt]
    · simp only [Bool.not_eq_true] at hatt
      simp [hatt]

/-- Witness for C10: a fresh detector, the listener token 0 registered
twice; one unsubscribe removes it entirely and detaches the observer. -/
theorem claim10_witness :
    (mkDetector defaultOptions).listeners.Nodup ∧
    (onScan (onScan (mkDetector defaultOptions) 0) 0).listeners = [0] ∧
    0 ∉ (unsubscribe (onScan (onScan (mkDetector defaultOptions) 0) 0) 0).listeners ∧
    (unsubscribe (onScan (onScan (mkDetector defaultOptions) 0) 0) 0).isAttached
      = false :=
  ⟨by decide, by decide,
   (claim10_theorem (mkDetector defaultOptions) 0 (by decide)).1,
   (claim10_theorem (mkDetector defaultOptions) 0 (by decide)).2 (by decide)⟩
